import Mathlib

/-!
Shallow embedding of `ia_santander.py` (AIE San Justo, Banco Santander
statement parser).  The Streamlit presentation layer and the pdfplumber
PDF reader are external collaborators: the embedding starts from the
per-page grids of optional text cells that pdfplumber yields and models
the pure pipeline
  `_parse_amount`, `_clasificar_movimiento`, `parse_santander_pdf`,
  `construir_resumen_impositivo`, `calcular_saldos`.
Python floats are modelled as exact rationals plus the special values
`inf`, `-inf`, `nan` (`PyFloat`); pandas datetimes as year/month/day
triples; pandas `DataFrame`s of movements as lists of `Mov` records.
-/

attribute [local semireducible] Rat.add Rat.mul Rat.inv Rat.sub

/-- Models Python `str.lower` restricted to the alphabet this app uses:
ASCII letters plus the Spanish accented capitals Á É Í Ó Ú Ñ. -/
def pyLowerChar (c : Char) : Char :=
  if 'A' ≤ c ∧ c ≤ 'Z' then Char.ofNat (c.toNat + 32)
  else if c = 'Á' then 'á'
  else if c = 'É' then 'é'
  else if c = 'Í' then 'í'
  else if c = 'Ó' then 'ó'
  else if c = 'Ú' then 'ú'
  else if c = 'Ñ' then 'ñ'
  else c

/-- Python `str.lower` on a whole string. -/
def strLower (s : String) : String := ⟨s.data.map pyLowerChar⟩

/-- Whitespace characters recognised by Python's `str.strip` / `float`
(ASCII subset). -/
def isPyWS (c : Char) : Bool :=
  c = ' ' || c = '\t' || c = '\n' || c = '\r'

/-- Python `str.strip()` (ASCII-whitespace subset). -/
def pyStrip (s : String) : String :=
  ⟨((s.data.dropWhile isPyWS).reverse.dropWhile isPyWS).reverse⟩

/-- Python substring test `sub in s`. -/
def strContains (s sub : String) : Bool := decide (sub.data <:+: s.data)

/-- A Python `float` value: an exact rational for finite doubles, plus the
special values.  Finite values are kept as exact rationals (the standard
float-as-rational shallow embedding); IEEE rounding of finite results is
not modelled, overflow to infinity is. -/
inductive PyFloat where
  | finite (q : ℚ)
  | inf
  | ninf
  | nan
deriving DecidableEq, Repr

/-- Smallest magnitude at which `float(<string>)` overflows to infinity:
the IEEE-754 binary64 round-half-even boundary `2^1024 - 2^970`, written
as an explicit numeral. -/
def doubleOverflowBound : ℚ := 179769313486231580793728971405303415079934132710037826936173778980444968292764750946649017977587207096330286416692887910946555547851940402630657488671505820681908902000708383676273854845817711531764475730270069855571366959622842914819860834936475292719074168444365510704342711559699508093042880177904174497792

/-- Numeric value of a list of ASCII digits. -/
def digitsVal (l : List Char) : ℕ :=
  l.foldl (fun acc c => acc * 10 + (c.toNat - 48)) 0

/-- Mantissa of a Python float literal: `digits`, `digits.`, `.digits` or
`digits.digits` (at least one digit overall).  PEP 515 underscore
grouping is not modelled. -/
def parseMantissa (m : List Char) : Option ℚ :=
  let ip := m.takeWhile (·.isDigit)
  let rest := m.dropWhile (·.isDigit)
  match rest with
  | [] => if ip.isEmpty then none else some (digitsVal ip)
  | '.' :: fp =>
      if fp.all (·.isDigit) && !(ip.isEmpty && fp.isEmpty) then
        some ((digitsVal ip : ℚ) + (digitsVal fp : ℚ) / 10 ^ fp.length)
      else none
  | _ => none

/-- Exponent part of a Python float literal (after the `e`/`E`). -/
def parseExpPart (l : List Char) : Option ℤ :=
  let (sgn, ds) : ℤ × List Char :=
    match l with
    | '+' :: r => (1, r)
    | '-' :: r => (-1, r)
    | r => (1, r)
  if ds.isEmpty || !ds.all (·.isDigit) then none
  else some (sgn * (digitsVal ds : ℤ))

/-- Splits a float literal at the first `e`/`E` (exponent marker). -/
def splitExpMarker (l : List Char) : List Char × Option (List Char) :=
  let m := l.takeWhile (fun c => c ≠ 'e' && c ≠ 'E')
  match l.dropWhile (fun c => c ≠ 'e' && c ≠ 'E') with
  | [] => (m, none)
  | _ :: r => (m, some r)

/-- Unsigned numeric body of a Python float literal, exponent included. -/
def parseUnsignedFloat (l : List Char) : Option ℚ :=
  match splitExpMarker l with
  | (m, none) => parseMantissa m
  | (m, some e) =>
      match parseMantissa m, parseExpPart e with
      | some q, some ex => some (q * (10 : ℚ) ^ ex)
      | _, _ => none

/-- Case-insensitive comparison against an ASCII keyword. -/
def lowerIs (l : List Char) (kw : String) : Bool :=
  l.map pyLowerChar == kw.data

/-- Models CPython's `float(<string>)`: optional sign, then `inf`,
`infinity` or `nan` (case-insensitive) or a decimal literal with optional
exponent; surrounding whitespace is stripped; finite magnitudes at or
above `doubleOverflowBound` overflow to infinity.  Returns `none` where
Python raises `ValueError`. -/
def pyFloatOfString (s : String) : Option PyFloat :=
  let t := ((s.data.dropWhile isPyWS).reverse.dropWhile isPyWS).reverse
  let (neg, u) : Bool × List Char :=
    match t with
    | '+' :: r => (false, r)
    | '-' :: r => (true, r)
    | r => (false, r)
  if lowerIs u "inf" || lowerIs u "infinity" then
    some (if neg then PyFloat.ninf else PyFloat.inf)
  else if lowerIs u "nan" then
    some PyFloat.nan
  else
    match parseUnsignedFloat u with
    | none => none
    | some q =>
        if doubleOverflowBound ≤ q then
          some (if neg then PyFloat.ninf else PyFloat.inf)
        else
          some (PyFloat.finite (if neg then -q else q))

/-- Python `str.replace(old, new)` for the single-character patterns the
source uses (`new` is empty or a single character). -/
def replaceChar (old : Char) (new : List Char) (s : String) : String :=
  ⟨s.data.flatMap (fun c => if c = old then new else [c])⟩

/-- The cleaning chain of `_parse_amount` (lines 56-58 of the source):
drop `$`, turn non-breaking spaces into spaces, drop spaces, drop the
thousands dots, and turn the decimal comma into a dot. -/
def cleanAmount (s : String) : String :=
  replaceChar ',' ['.']
    (replaceChar '.' []
      (replaceChar ' ' []
        (replaceChar ' ' [' ']
          (replaceChar '$' [] s))))

/-- `_parse_amount` (source lines 45-62): converts a Santander amount
cell such as `5.000.000,00` to a float; `None`, blank and `-` cells give
`0.0`, and a cleaned text that `float` still rejects gives `0.0`. -/
def _parse_amount (text : Option String) : PyFloat :=
  match text with
  | none => PyFloat.finite 0
  | some t =>
      let s := pyStrip t
      if s = "" || s = "-" then PyFloat.finite 0
      else
        match pyFloatOfString (cleanAmount s) with
        | some v => v
        | none => PyFloat.finite 0

/-- `_clasificar_movimiento` (source lines 65-97): ordered,
first-match-wins substring classification of a movement description
into the tax category labels. -/
def _clasificar_movimiento (desc : Option String) : String :=
  let d := strLower (desc.getD "")
  if strContains d "impuesto ley 25.413" || strContains d "impuesto ley 25413" then
    if strContains d "debito" then "IMP. LEY 25.413 - DÉBITOS"
    else if strContains d "credito" then "IMP. LEY 25.413 - CRÉDITOS"
    else "IMP. LEY 25.413"
  else if strContains d "sircreb" then "SIRCREB"
  else if strContains d "iva 21" || strContains d "iva 21% reg" then "IVA 21%"
  else if strContains d "iva percepcion" || strContains d "iva percepción" then "IVA PERCEPCIÓN"
  else if strContains d "comision por servicio de cuenta" then "COMISIÓN CUENTA"
  else if strContains d "pago haberes" then "PAGO HABERES"
  else if strContains d "deposito de efectivo" || strContains d "deposito efvo" then "DEPÓSITO EFECTIVO"
  else "OTROS"

/-- Python unary minus on a float. -/
def PyFloat.neg : PyFloat → PyFloat
  | finite q => finite (-q)
  | inf => ninf
  | ninf => inf
  | nan => nan

/-- Python `abs(x) > 0` on a float (`abs(nan) > 0` is `False`). -/
def PyFloat.absGtZero : PyFloat → Bool
  | finite q => decide (0 < |q|)
  | inf => true
  | ninf => true
  | nan => false

/-- Python float addition (used by the pandas sums). -/
def PyFloat.add : PyFloat → PyFloat → PyFloat
  | nan, _ => nan
  | _, nan => nan
  | inf, ninf => nan
  | ninf, inf => nan
  | inf, _ => inf
  | _, inf => inf
  | ninf, _ => ninf
  | _, ninf => ninf
  | finite a, finite b => finite (a + b)

/-- Gregorian leap year. -/
def isLeap (y : ℕ) : Bool := (y % 4 == 0 && y % 100 != 0) || y % 400 == 0

/-- Days in a month of the Gregorian calendar. -/
def daysInMonth (y m : ℕ) : ℕ :=
  if m = 2 then (if isLeap y then 29 else 28)
  else if m = 4 ∨ m = 6 ∨ m = 9 ∨ m = 11 then 30
  else 31

/-- Value of a two-ASCII-digit pair. -/
def twoDigits (a b : Char) : ℕ := (a.toNat - 48) * 10 + (b.toNat - 48)

/-- `pd.to_datetime(s, format="%d/%m/%y", errors="coerce")` on one cell:
the whole string must be `DD/MM/YY` with a valid calendar date; two-digit
years 00-68 map to 2000-2068 and 69-99 to 1969-1999 (the strptime `%y`
rule); any failure is `NaT`, modelled as `none`. -/
def parseFecha (s : String) : Option (ℕ × ℕ × ℕ) :=
  match s.data with
  | [d1, d2, s1, m1, m2, s2, y1, y2] =>
      if d1.isDigit && d2.isDigit && s1 == '/' && m1.isDigit && m2.isDigit &&
          s2 == '/' && y1.isDigit && y2.isDigit then
        let dd := twoDigits d1 d2
        let mm := twoDigits m1 m2
        let yy := twoDigits y1 y2
        let yyyy := if yy ≤ 68 then 2000 + yy else 1900 + yy
        if 1 ≤ mm && mm ≤ 12 && 1 ≤ dd && dd ≤ daysInMonth yyyy mm then
          some (yyyy, mm, dd)
        else none
      else none
  | _ => none

/-- One movement row of the resulting DataFrame: the dict built at source
lines 171-183 plus the `fecha` and `categoria` columns added at lines
191-196. -/
structure Mov where
  fecha : Option (ℕ × ℕ × ℕ)
  fecha_str : String
  comprobante : String
  movimiento : String
  categoria : String
  tipo : String
  debito : PyFloat
  credito : PyFloat
  importe : PyFloat
  importe_raw : PyFloat
  saldo : PyFloat
deriving DecidableEq, Repr

/-- One raw pdfplumber cell: `None` or a text. -/
abbrev Cell := Option String

/-- Python truthiness of an optional string cell. -/
def cellTruthy : Cell → Bool
  | none => false
  | some s => decide (s ≠ "")

/-- Pads the stripped cells to at least six columns (source lines 143-145). -/
def padTo6 (cells : List String) : List String :=
  cells ++ List.replicate (6 - cells.length) ""

/-- `re.match(r"\d{2}/\d{2}/\d{2}", s)` as a Boolean: two digits, slash,
two digits, slash, two digits at the START of the string (`re.match`
anchors only at the beginning; there is no end anchor). -/
def dateRe (s : String) : Bool :=
  match s.data with
  | d1 :: d2 :: s1 :: m1 :: m2 :: s2 :: y1 :: y2 :: _ =>
      d1.isDigit && d2.isDigit && s1 == '/' && m1.isDigit && m2.isDigit &&
        s2 == '/' && y1.isDigit && y2.isDigit
  | _ => false

/-- Processing of one raw table row (source lines 138-183): skip rows that
are empty or all-falsy, strip the cells, pad to six columns, keep only
rows whose date cell matches the `DD/MM/YY` prefix pattern, parse the
amounts and infer direction and signed amount.  The `fecha` and
`categoria` columns of lines 191-196 are pure row-wise maps and are
computed here as well. -/
def processRow (raw : List Cell) : Option Mov :=
  if raw.isEmpty || !raw.any cellTruthy then none
  else
    let cells := padTo6 (raw.map (fun c => pyStrip (c.getD "")))
    let fecha_txt := (cells[0]?).getD ""
    let comp := (cells[1]?).getD ""
    let mov := (cells[2]?).getD ""
    let deb_txt := (cells[3]?).getD ""
    let cred_txt := (cells[4]?).getD ""
    let saldo_txt := (cells[5]?).getD ""
    if !dateRe fecha_txt then none
    else
      let deb := _parse_amount (some deb_txt)
      let cred := _parse_amount (some cred_txt)
      let saldo := _parse_amount (some saldo_txt)
      let tipo := if deb.absGtZero then "DEBITO" else if cred.absGtZero then "CREDITO" else ""
      let importe_raw :=
        if deb.absGtZero then deb else if cred.absGtZero then cred else PyFloat.finite 0
      let importe :=
        if deb.absGtZero then deb.neg else if cred.absGtZero then cred else PyFloat.finite 0
      some { fecha := parseFecha fecha_txt, fecha_str := fecha_txt,
             comprobante := comp, movimiento := mov,
             categoria := _clasificar_movimiento (some mov), tipo := tipo,
             debito := deb, credito := cred, importe := importe,
             importe_raw := importe_raw, saldo := saldo }

/-- A page-level grid of optional text cells, as produced by pdfplumber's
`page.extract_tables()`. -/
abbrev Table := List (List Cell)

/-- Processing of one extracted table (source lines 127-151): tables with
fewer than two rows are skipped; the first row is the header, whose cells
are stripped, lower-cased and joined with spaces; only tables whose
joined header mentions both `fecha` and `saldo` contribute rows. -/
def processTable (table : Table) : List Mov :=
  if table.length < 2 then []
  else
    let header := (table.headD []).map (fun c => strLower (pyStrip (c.getD "")))
    let header_join := String.intercalate " " header
    if strContains header_join "fecha" && strContains header_join "saldo" then
      (table.tail).filterMap processRow
    else []

/-- Sort key, date component: pandas orders parsed dates chronologically
and puts `NaT` last (`na_position="last"` is the `sort_values` default),
so a parsed date maps to `(false, y*10000 + m*100 + d)` and `NaT` to
`(true, 0)` in the lexicographic `Bool ×ₗ ℕ` order (`false < true`). -/
def fechaKey : Option (ℕ × ℕ × ℕ) → Bool ×ₗ ℕ
  | none => toLex (true, 0)
  | some (y, m, d) => toLex (false, y * 10000 + m * 100 + d)

/-- Full sort key of `sort_values(["fecha", "comprobante"])`.  Python
compares strings lexicographically by code point, which is the
lexicographic order on the character lists. -/
def movKey (m : Mov) : (Bool ×ₗ ℕ) ×ₗ List Char :=
  toLex (fechaKey m.fecha, m.comprobante.data)

/-- The sort relation on index-decorated rows.  pandas' multi-column sort
is a stable lexsort: rows are ordered by key and ties keep positional
order; the `ℕ` component is the positional index, dropped again by
`ignore_index=True`. -/
def movLeIdx (a b : ℕ × Mov) : Prop := movKey a.2 ≤ movKey b.2

instance : DecidableRel movLeIdx :=
  fun a b => inferInstanceAs (Decidable (movKey a.2 ≤ movKey b.2))

/-- The stable sort of `sort_values(["fecha", "comprobante"])` acting on
index-decorated rows. -/
def sortEnum (l : List Mov) : List (ℕ × Mov) := List.insertionSort movLeIdx l.enum

/-- The sorted ledger, decorations dropped (`ignore_index=True`). -/
def sortLedger (l : List Mov) : List Mov := (sortEnum l).map Prod.snd

/-- `parse_santander_pdf` (source lines 102-215) behind the pdfplumber
boundary: takes the tables extracted from all pages (page order, then
table order within the page) and yields the sorted movement ledger. -/
def parse_santander_pdf (tables : List Table) : List Mov :=
  let rows := tables.flatMap processTable
  if rows.isEmpty then [] else sortLedger rows

/-- The fixed allow-list of tax categories (source lines 226-234), in its
declared order. -/
def categorias_interes : List String :=
  ["IMP. LEY 25.413 - DÉBITOS", "IMP. LEY 25.413 - CRÉDITOS", "IMP. LEY 25.413",
   "SIRCREB", "IVA 21%", "IVA PERCEPCIÓN", "COMISIÓN CUENTA"]

/-- pandas float sum of a column: left fold of float addition from `0.0`. -/
def sumPF (l : List PyFloat) : PyFloat := l.foldl PyFloat.add (PyFloat.finite 0)

/-- The `__orden` column (source lines 247-248): position of a category in
the allow-list, `999` for a category not in it (`fillna(999)`). -/
def ordenIdx (c : String) : ℕ := (categorias_interes.findIdx? (fun x => x == c)).getD 999

/-- Relation by which `groupby` sorts its keys (pandas `sort=True`:
ascending Python string order, i.e. code-point lexicographic). -/
def strLe (a b : String) : Prop := a.data ≤ b.data

instance : DecidableRel strLe := fun a b => inferInstanceAs (Decidable (a.data ≤ b.data))

/-- Relation of the final `sort_values("__orden")`. -/
def ordenLe (a b : String × PyFloat) : Prop := ordenIdx a.1 ≤ ordenIdx b.1

instance : DecidableRel ordenLe := fun _ _ => Nat.decLe _ _

/-- `construir_resumen_impositivo` (source lines 218-253): filter the
ledger to the allow-listed categories, group by category summing
`importe_raw` (`groupby` with the default `sort=True` lists its keys in
ascending string order and sums each group in row order), then sort the
summary rows by allow-list position. -/
def construir_resumen_impositivo (df : List Mov) : List (String × PyFloat) :=
  if df.isEmpty then []
  else
    let df_imp := df.filter (fun m => decide (m.categoria ∈ categorias_interes))
    if df_imp.isEmpty then []
    else
      let keys := List.insertionSort strLe ((df_imp.map (·.categoria)).dedup)
      let resumen := keys.map (fun c =>
        (c, sumPF ((df_imp.filter (fun m => m.categoria == c)).map (·.importe_raw))))
      List.insertionSort ordenLe resumen

/-- The `str.contains("saldo inicial", case=False)` mask of source line
269 on one row. -/
def siMarker (m : Mov) : Bool := strContains (strLower m.movimiento) "saldo inicial"

/-- `calcular_saldos` (source lines 256-278): opening balance from the
first row whose description contains `saldo inicial` case-insensitively,
else from the first row; closing balance from the last row; an empty
ledger yields `(0.0, 0.0)`. -/
def calcular_saldos (df : List Mov) : PyFloat × PyFloat :=
  match df with
  | [] => (PyFloat.finite 0, PyFloat.finite 0)
  | m0 :: rest =>
      let saldo_inicial :=
        match (m0 :: rest).find? siMarker with
        | some r => r.saldo
        | none => m0.saldo
      (saldo_inicial, ((m0 :: rest).getLast (List.cons_ne_nil m0 rest)).saldo)

instance : IsTotal (ℕ × Mov) movLeIdx :=
  ⟨fun a b => le_total (movKey a.2) (movKey b.2)⟩

instance : IsTrans (ℕ × Mov) movLeIdx :=
  ⟨fun _ _ _ h1 h2 => le_trans h1 h2⟩

/-- Two rows with equal sort keys (same parsed date, same reference) but
different descriptions, used by the stability witness. -/
def stableExA : Mov :=
  { fecha := some (2024, 1, 1), fecha_str := "01/01/24", comprobante := "X",
    movimiento := "first", categoria := "OTROS", tipo := "",
    debito := PyFloat.finite 0, credito := PyFloat.finite 0,
    importe := PyFloat.finite 0, importe_raw := PyFloat.finite 0,
    saldo := PyFloat.finite 0 }

/-- Second stability-witness row: equal key, different description. -/
def stableExB : Mov :=
  { fecha := some (2024, 1, 1), fecha_str := "01/01/24", comprobante := "X",
    movimiento := "second", categoria := "OTROS", tipo := "",
    debito := PyFloat.finite 0, credito := PyFloat.finite 0,
    importe := PyFloat.finite 0, importe_raw := PyFloat.finite 0,
    saldo := PyFloat.finite 0 }

/-- A ledger row whose description carries the opening-balance marker,
used by the balance witness. -/
def saldoExA : Mov :=
  { fecha := some (2024, 1, 1), fecha_str := "01/01/24", comprobante := "A",
    movimiento := "SALDO INICIAL", categoria := "OTROS", tipo := "",
    debito := PyFloat.finite 0, credito := PyFloat.finite 0,
    importe := PyFloat.finite 0, importe_raw := PyFloat.finite 0,
    saldo := PyFloat.finite 1000 }

/-- A plain ledger row, used by the balance witness. -/
def saldoExB : Mov :=
  { fecha := some (2024, 1, 2), fecha_str := "02/01/24", comprobante := "B",
    movimiento := "pago", categoria := "OTROS", tipo := "DEBITO",
    debito := PyFloat.finite 10, credito := PyFloat.finite 0,
    importe := PyFloat.finite (-10), importe_raw := PyFloat.finite 10,
    saldo := PyFloat.finite 990 }

instance : IsTotal String strLe := ⟨fun a b => le_total a.data b.data⟩

instance : IsTrans String strLe := ⟨fun _ _ _ => le_trans⟩

instance : IsTotal (String × PyFloat) ordenLe := ⟨fun _ _ => Nat.le_total _ _⟩

instance : IsTrans (String × PyFloat) ordenLe := ⟨fun _ _ _ => Nat.le_trans⟩

instance : IsAntisymm (String × PyFloat) (fun x y => ordenIdx x.1 < ordenIdx y.1) :=
  ⟨fun _ _ h1 h2 => absurd (Nat.lt_trans h1 h2) (Nat.lt_irrefl _)⟩

/-- C8 (counterexample): "the amount normalizer returns a finite float
for every input" fails.  The input `"inf"` survives stripping and
cleaning unchanged, and Python's `float("inf")` returns positive
infinity without raising, so `_parse_amount` returns it. -/
theorem parse_amount_inf_cex : _parse_amount (some "inf") = PyFloat.inf := by decide

/-- C8 (amended): `_parse_amount` is total — it returns a float value for
every input, never raising — and satisfies the stated conversions:
`5.000.000,00 ↦ 5000000.0`, `- ↦ 0.0`, `None ↦ 0.0`,
`$ 1.234,56 ↦ 1234.56`; any cleaned text that still fails numeric
conversion is mapped to `0.0`.  The result is however not always finite:
inputs whose cleaned text parses as infinity or NaN (such as `inf`)
yield non-finite floats. -/
theorem parse_amount_spec :
    _parse_amount (some "5.000.000,00") = PyFloat.finite 5000000 ∧
    _parse_amount (some "-") = PyFloat.finite 0 ∧
    _parse_amount none = PyFloat.finite 0 ∧
    _parse_amount (some "$ 1.234,56") = PyFloat.finite (123456 / 100) ∧
    ∀ s : String, pyFloatOfString (cleanAmount (pyStrip s)) = none →
      _parse_amount (some s) = PyFloat.finite 0 := by
  refine ⟨by decide, by decide, rfl, by decide, ?_⟩
  intro s h
  simp only [_parse_amount, h]
  split <;> rfl

/-- C8 (witness): the fallback clause of the amended theorem applied to a
concrete garbage input. -/
theorem parse_amount_spec_witness :
    _parse_amount (some "garbage text") = PyFloat.finite 0 :=
  parse_amount_spec.2.2.2.2 "garbage text" (by decide)

/-- C5: the classifier applies its rules in order with first match
winning: every description containing a Ley 25.413 marker together with
the `debito` qualifier resolves to the DÉBITOS subcategory and never the
bare category; a null or empty description resolves to OTROS. -/
theorem clasificar_spec :
    (∀ d : String,
      (strContains (strLower d) "impuesto ley 25.413" = true ∨
       strContains (strLower d) "impuesto ley 25413" = true) →
      strContains (strLower d) "debito" = true →
      _clasificar_movimiento (some d) = "IMP. LEY 25.413 - DÉBITOS") ∧
    _clasificar_movimiento none = "OTROS" ∧
    _clasificar_movimiento (some "") = "OTROS" := by
  refine ⟨?_, by decide, by decide⟩
  intro d hm hd
  rcases hm with hm | hm <;> simp [_clasificar_movimiento, hm, hd]

/-- C5 (witness): the first clause at a concrete description, and the
null case. -/
theorem clasificar_spec_witness :
    _clasificar_movimiento (some "Impuesto LEY 25.413 por debito") = "IMP. LEY 25.413 - DÉBITOS" ∧
    _clasificar_movimiento none = "OTROS" :=
  ⟨clasificar_spec.1 "Impuesto LEY 25.413 por debito" (Or.inl (by decide)) (by decide),
   clasificar_spec.2.1⟩

/-- C10 (counterexample): "a description containing the Ley 25.413 marker
and the accented `débito` (and not the unaccented `debito`) is classified
into the bare category" fails: when the description also contains the
unaccented `credito`, the CRÉDITOS rule fires first. -/
theorem clasificar_accent_cex :
    _clasificar_movimiento (some "impuesto ley 25413 débito credito") =
        "IMP. LEY 25.413 - CRÉDITOS" ∧
    _clasificar_movimiento (some "impuesto ley 25413 débito credito") ≠
        "IMP. LEY 25.413" := by decide

/-- C10 (amended): qualifier matching is case-insensitive but not
accent-insensitive: a description containing a Ley 25.413 marker and the
accented `débito` while containing neither the unaccented `debito` nor
the unaccented `credito` is classified into the bare category; the
upper-case unaccented `DEBITO` is still matched (case-insensitivity),
the accented `DÉBITO` is not. -/
theorem clasificar_accent_spec :
    (∀ d : String,
      (strContains (strLower d) "impuesto ley 25.413" = true ∨
       strContains (strLower d) "impuesto ley 25413" = true) →
      strContains (strLower d) "débito" = true →
      strContains (strLower d) "debito" = false →
      strContains (strLower d) "credito" = false →
      _clasificar_movimiento (some d) = "IMP. LEY 25.413") ∧
    _clasificar_movimiento (some "IMPUESTO LEY 25.413 DEBITO") = "IMP. LEY 25.413 - DÉBITOS" ∧
    _clasificar_movimiento (some "IMPUESTO LEY 25.413 DÉBITO") = "IMP. LEY 25.413" := by
  refine ⟨?_, by decide, by decide⟩
  intro d hm _ h1 h2
  rcases hm with hm | hm <;> simp [_clasificar_movimiento, hm, h1, h2]

/-- C10 (witness): the amended universal clause at a concrete accented
description. -/
theorem clasificar_accent_spec_witness :
    _clasificar_movimiento (some "Impuesto Ley 25.413 Débito") = "IMP. LEY 25.413" :=
  clasificar_accent_spec.1 "Impuesto Ley 25.413 Débito"
    (Or.inl (by decide)) (by decide) (by decide) (by decide)

/-- C4 (code evaluated at the failing input): a row whose debit cell is
`-5,00` is accepted and produces a transaction tagged DEBITO whose
`debito` and `importe_raw` are negative and whose signed `importe` is
positive — contradicting the claimed invariant and the source's own
docstring `importe_raw (siempre positivo)`. -/
theorem direction_invariant_failing_input :
    (processRow [some "01/03/24", some "0001", some "pago proveedor",
        some "-5,00", some "", some "100,00"]).map
      (fun m => (m.tipo, m.debito, m.importe, m.importe_raw)) =
    some ("DEBITO", PyFloat.finite (-5), PyFloat.finite 5, PyFloat.finite (-5)) := by decide

/-- C1 (counterexample): the claim says a row whose date field is
`31/02/99foo` is excluded; in fact `re.match` anchors only at the start
of the string and `31/02/99foo` begins with digit-digit-slash-digit-
digit-slash-digit-digit, so the row IS accepted as a transaction row. -/
theorem row_filter_cex :
    (processTable [[some "Fecha", some "Comprobante", some "Movimiento",
        some "Débito", some "Crédito", some "Saldo"],
      [some "31/02/99foo", some "1", some "x", some "", some "", some ""]]).map
      (·.fecha_str) = ["31/02/99foo"] := by decide

/-- C1 (amended): a raw table row is accepted as a transaction row only
if its (stripped) date field matches `DD/MM/YY` at the start of the
string; a row whose date field is empty is excluded; a row `01/03/24`
with fewer than six cells is included (padding with empty strings is
applied before field extraction); and `31/02/99foo` is ALSO included,
since it matches the prefix pattern (its date merely parses to null
later). -/
theorem row_filter_spec :
    (∀ (raw : List Cell) (m : Mov), processRow raw = some m → dateRe m.fecha_str = true) ∧
    (processTable [[some "Fecha", some "Saldo"],
      [some "", some "1", some "x", some "", some "", some ""]]) = [] ∧
    (processTable [[some "Fecha", some "Saldo"],
      [some "01/03/24"]]).map (·.fecha_str) = ["01/03/24"] ∧
    (processTable [[some "Fecha", some "Saldo"],
      [some "31/02/99foo", some "1", some "x", some "", some "", some ""]]).map
        (·.fecha_str) = ["31/02/99foo"] := by
  refine ⟨?_, by decide, by decide, by decide⟩
  intro raw m h
  unfold processRow at h
  split at h
  · exact absurd h (by simp)
  · dsimp only at h
    split at h
    · exact absurd h (by simp)
    · rename_i hre
      cases h
      simpa using hre

/-- C1 (witness): the acceptance clause at a concrete one-cell row. -/
theorem row_filter_spec_witness :
    dateRe "01/03/24" = true :=
  row_filter_spec.1 [some "01/03/24"]
    { fecha := some (2024, 3, 1), fecha_str := "01/03/24", comprobante := "",
      movimiento := "", categoria := "OTROS", tipo := "", debito := PyFloat.finite 0,
      credito := PyFloat.finite 0, importe := PyFloat.finite 0,
      importe_raw := PyFloat.finite 0, saldo := PyFloat.finite 0 } (by decide)

/-- Looking a field up in the padded cells with default `""` is the same
as in the unpadded cells: padding only appends empty strings. -/
theorem padTo6_getD (l : List String) (i : ℕ) :
    ((padTo6 l)[i]?).getD "" = (l[i]?).getD "" := by
  unfold padTo6
  rcases lt_or_le i l.length with h1 | h1
  · rw [List.getElem?_append_left h1]
  · rw [List.getElem?_append_right h1, List.getElem?_replicate,
        List.getElem?_eq_none h1]
    split <;> rfl

/-- A stripped-and-padded field below index six only depends on the first
six raw cells. -/
theorem cells_take6 (raw : List Cell) (i : ℕ) (h : i < 6) :
    ((padTo6 ((raw.take 6).map (fun c => pyStrip (c.getD ""))))[i]?).getD "" =
    ((padTo6 (raw.map (fun c => pyStrip (c.getD ""))))[i]?).getD "" := by
  rw [padTo6_getD, padTo6_getD, List.map_take, List.getElem?_take_of_lt h]

/-- C9: only the first six cells of a raw row determine the resulting
transaction: `processRow` is unchanged by dropping every cell beyond the
sixth, so the extra cells have no effect on any field. -/
theorem row_take6_spec (raw : List Cell) :
    processRow raw = processRow (raw.take 6) := by
  rcases le_or_lt raw.length 6 with h6 | h6
  · rw [List.take_of_length_le h6]
  · cases raw with
    | nil => simp at h6
    | cons c0 t =>
      by_cases hany : ((c0 :: t).take 6).any cellTruthy
      · have hany' : (c0 :: t).any cellTruthy = true := by
          rw [List.any_eq_true] at hany ⊢
          obtain ⟨x, hx, hpx⟩ := hany
          exact ⟨x, List.take_subset 6 _ hx, hpx⟩
        unfold processRow
        rw [hany, hany']
        dsimp only
        rw [cells_take6 (c0 :: t) 0 (by omega), cells_take6 (c0 :: t) 1 (by omega),
            cells_take6 (c0 :: t) 2 (by omega), cells_take6 (c0 :: t) 3 (by omega),
            cells_take6 (c0 :: t) 4 (by omega), cells_take6 (c0 :: t) 5 (by omega)]
        simp only [List.isEmpty_cons, List.take_succ_cons, Bool.not_true,
          Bool.or_false, if_false]
      · have hany6 : ((c0 :: t).take 6).any cellTruthy = false := by simpa using hany
        have h0 : ∀ x ∈ (c0 :: t).take 6, cellTruthy x = false := by
          simpa [List.any_eq_true] using hany
        have hc0 : cellTruthy c0 = false := h0 c0 (by simp [List.take_succ_cons])
        have hf : pyStrip (c0.getD "") = "" := by
          cases c0 with
          | none => rfl
          | some s =>
            simp only [cellTruthy, decide_eq_false_iff_not, not_not] at hc0
            rw [Option.getD_some, hc0]; rfl
        have hfecha :
            ((padTo6 ((c0 :: t).map (fun c => pyStrip (c.getD ""))))[0]?).getD "" = "" := by
          rw [padTo6_getD]
          simp [hf]
        unfold processRow
        rw [hany6]
        by_cases hanyr : (c0 :: t).any cellTruthy
        · simp only [hanyr, Bool.not_true, Bool.or_false, List.isEmpty_cons,
            Bool.not_false, Bool.or_true, if_true]
          rw [hfecha]
          simp [dateRe]
        · have hr : (c0 :: t).any cellTruthy = false := by simpa using hanyr
          simp [hr]

/-- In the pandas key order a row with a parsed date lies strictly below
every row with a null date, so `movKey a ≤ movKey b` propagates
null-ness forward. -/
theorem fecha_none_of_movKey_le {a b : Mov} (h : movKey a ≤ movKey b)
    (ha : a.fecha = none) : b.fecha = none := by
  cases hb : b.fecha with
  | none => rfl
  | some d =>
    exfalso
    obtain ⟨y, m, dd⟩ := d
    simp only [movKey, ha, hb, fechaKey] at h
    rw [Prod.Lex.le_iff] at h
    rcases h with h | ⟨h, -⟩
    · rw [Prod.Lex.lt_iff] at h
      rcases h with h | ⟨h, -⟩
      · simp [Bool.lt_iff] at h
      · simp at h
    · simp [toLex] at h

/-- C2 (counterexample): in the ledger parsed from this table, the row
whose date fails to parse (`99/13/99`: month 13) sorts AFTER the row
with the parsed date `01/01/24`, so null-date rows do not appear before
all rows with a parsed date. -/
theorem sort_nat_cex :
    ¬ ((parse_santander_pdf [[[some "Fecha", some "Saldo"],
        [some "99/13/99", some "B", some "x", some "", some "", some "0,00"],
        [some "01/01/24", some "A", some "y", some "", some "", some "0,00"]]]).Pairwise
      (fun a b => b.fecha = none → a.fecha = none)) := by decide

/-- C2 (amended): after building all transactions the ledger is sorted by
(date ascending, reference ascending), and every transaction whose date
failed to parse (null date) sorts as the LATEST possible value: after
sorting, null-date rows appear after all rows with a parsed date (the
pandas `sort_values` default `na_position="last"`), not before them. -/
theorem sort_spec (l : List Mov) :
    (sortLedger l).Pairwise (fun a b => movKey a ≤ movKey b) ∧
    (sortLedger l).Pairwise (fun a b => a.fecha = none → b.fecha = none) := by
  have hs : (sortEnum l).Pairwise movLeIdx :=
    List.sorted_insertionSort movLeIdx l.enum
  have h1 : (sortLedger l).Pairwise (fun a b => movKey a ≤ movKey b) := by
    rw [sortLedger, List.pairwise_map]
    exact hs
  exact ⟨h1, h1.imp fun h ha => fecha_none_of_movKey_le h ha⟩

/-- C3: the ledger sort is stable: two rows carrying equal
(date, reference) keys that appear in extraction order in the
index-decorated ledger appear in the same relative order in the sorted
decorated ledger. -/
theorem sort_stable_spec (l : List Mov) (i j : ℕ) (a b : Mov)
    (hkey : movKey a = movKey b) (hsub : List.Sublist [(i, a), (j, b)] l.enum) :
    List.Sublist [(i, a), (j, b)] (sortEnum l) :=
  List.pair_sublist_insertionSort (le_of_eq hkey) hsub

/-- C3 (witness): the stability theorem at a concrete two-row ledger with
equal keys. -/
theorem sort_stable_spec_witness :
    List.Sublist [(0, stableExA), (1, stableExB)] (sortEnum [stableExA, stableExB]) :=
  sort_stable_spec [stableExA, stableExB] 0 1 stableExA stableExB (by decide)
    (List.Sublist.refl _)

/-- `find?` returns the element at the first index satisfying the
predicate. -/
theorem find?_eq_get_of_min {α : Type _} (p : α → Bool) (l : List α) (i : ℕ)
    (h : i < l.length) (hp : p (l.get ⟨i, h⟩) = true)
    (hmin : ∀ j (hj : j < i), p (l.get ⟨j, by omega⟩) = false) :
    l.find? p = some (l.get ⟨i, h⟩) := by
  induction l generalizing i with
  | nil => simp at h
  | cons a t ih =>
    cases i with
    | zero => exact List.find?_cons_of_pos t hp
    | succ n =>
      have ha : p a = false := hmin 0 (by omega)
      rw [List.find?_cons_of_neg t (by simp [ha])]
      exact ih n (by simpa using h) hp (fun j hj => hmin (j + 1) (by omega))

/-- C7: the opening balance is the `saldo` of the first row (in ledger
order) whose description contains `saldo inicial` case-insensitively if
such a row exists, otherwise the `saldo` of the first row; the closing
balance is the `saldo` of the last row; an empty ledger yields
`(0.0, 0.0)` without error. -/
theorem calcular_saldos_spec (df : List Mov) :
    calcular_saldos [] = (PyFloat.finite 0, PyFloat.finite 0) ∧
    ((∀ x ∈ df, siMarker x = false) → ∀ m0, df.head? = some m0 →
        (calcular_saldos df).1 = m0.saldo) ∧
    (∀ (i : ℕ) (h : i < df.length), siMarker (df.get ⟨i, h⟩) = true →
        (∀ j (hj : j < i), siMarker (df.get ⟨j, by omega⟩) = false) →
        (calcular_saldos df).1 = (df.get ⟨i, h⟩).saldo) ∧
    (∀ mL, df.getLast? = some mL → (calcular_saldos df).2 = mL.saldo) := by
  refine ⟨rfl, ?_, ?_, ?_⟩
  · intro hall m0 hm0
    cases df with
    | nil => simp at hm0
    | cons a t =>
      have : (a :: t).find? siMarker = none :=
        List.find?_eq_none.mpr (fun x hx => by simp [hall x hx])
      simp only [List.head?_cons, Option.some.injEq] at hm0
      simp [calcular_saldos, this, ← hm0]
  · intro i h hp hmin
    cases df with
    | nil => simp at h
    | cons a t =>
      have := find?_eq_get_of_min siMarker (a :: t) i h hp hmin
      simp [calcular_saldos, this]
  · intro mL hL
    cases df with
    | nil => simp at hL
    | cons a t =>
      rw [List.getLast?_eq_getLast (a :: t) (List.cons_ne_nil a t)] at hL
      simp only [Option.some.injEq] at hL
      simp [calcular_saldos, ← hL]

/-- C7 (witness): opening balance from the marker row, closing balance
from the last row, on a concrete two-row ledger. -/
theorem calcular_saldos_spec_witness :
    (calcular_saldos [saldoExA, saldoExB]).1 = PyFloat.finite 1000 ∧
    (calcular_saldos [saldoExA, saldoExB]).2 = PyFloat.finite 990 :=
  ⟨(calcular_saldos_spec [saldoExA, saldoExB]).2.2.1 0 (by decide) (by decide)
      (fun j hj => absurd hj (by omega)),
   (calcular_saldos_spec [saldoExA, saldoExB]).2.2.2 saldoExB (by decide)⟩

/-- `ordenIdx` separates distinct members of the allow-list. -/
theorem ordenIdx_inj : ∀ a ∈ categorias_interes, ∀ b ∈ categorias_interes,
    ordenIdx a = ordenIdx b → a = b := by decide

/-- The allow-list is strictly increasing in its own index order. -/
theorem interes_pairwise :
    categorias_interes.Pairwise (fun a b => ordenIdx a < ordenIdx b) := by decide

/-- The allow-list has no duplicates. -/
theorem interes_nodup : categorias_interes.Nodup := by decide

/-- Filtering the allow-listed rows and then one category is the same as
filtering that category directly, when the category is allow-listed. -/
theorem filter_imp_eq (df : List Mov) (c : String) (hc : c ∈ categorias_interes) :
    (df.filter (fun m => decide (m.categoria ∈ categorias_interes))).filter
        (fun m => m.categoria == c) =
      df.filter (fun m => m.categoria == c) := by
  rw [List.filter_filter]
  apply List.filter_congr
  intro m _
  by_cases hm : m.categoria == c
  · rw [beq_iff_eq] at hm
    simp [hm, hc]
  · simp [hm]

/-- C6: the tax summary of a ledger has one entry per allow-listed
category occurring in the ledger, listed in the allow-list's declared
order, and the aggregated amount of each entry is the float sum of the
`importe_raw` magnitudes of exactly the ledger rows of that category; an
empty filtered set yields the empty summary. -/
theorem resumen_spec (df : List Mov) :
    construir_resumen_impositivo df =
      (categorias_interes.filter (fun c => df.any (fun m => m.categoria == c))).map
        (fun c => (c, sumPF ((df.filter (fun m => m.categoria == c)).map (·.importe_raw)))) := by
  by_cases hdf : df.isEmpty = true
  · rw [List.isEmpty_iff] at hdf
    subst hdf
    simp [construir_resumen_impositivo]
  · rw [construir_resumen_impositivo, if_neg hdf]
    dsimp only
    by_cases himp :
        (df.filter (fun m => decide (m.categoria ∈ categorias_interes))).isEmpty = true
    · rw [if_pos himp]
      rw [List.isEmpty_iff] at himp
      have hfil : (categorias_interes.filter
          (fun c => df.any (fun m => m.categoria == c))) = [] := by
        rw [List.filter_eq_nil_iff]
        intro c hc hany
        rw [List.any_eq_true] at hany
        obtain ⟨m, hm, hmc⟩ := hany
        have hmem : m ∈ df.filter (fun m => decide (m.categoria ∈ categorias_interes)) := by
          rw [List.mem_filter]
          rw [beq_iff_eq] at hmc
          exact ⟨hm, by simp [hmc, hc]⟩
        rw [himp] at hmem
        simp at hmem
      rw [hfil, List.map_nil]
    · rw [if_neg himp]
      set df_imp := df.filter (fun m => decide (m.categoria ∈ categorias_interes)) with hdfimp
      set keys := List.insertionSort strLe ((df_imp.map (·.categoria)).dedup) with hkeys
      set g : String → String × PyFloat := fun c =>
        (c, sumPF ((df.filter (fun m => m.categoria == c)).map (·.importe_raw))) with hg
      set P : String → Bool := fun c => df.any (fun m => m.categoria == c) with hP
      have hsubI : ∀ c ∈ keys, c ∈ categorias_interes := by
        intro c hc
        rw [hkeys, List.mem_insertionSort, List.mem_dedup, List.mem_map] at hc
        obtain ⟨m, hm, hmc⟩ := hc
        rw [hdfimp, List.mem_filter] at hm
        rw [← hmc]
        simpa using hm.2
      have hmapg : keys.map (fun c =>
          (c, sumPF ((df_imp.filter (fun m => m.categoria == c)).map (·.importe_raw)))) =
          keys.map g := by
        apply List.map_congr_left
        intro c hc
        rw [hg]
        rw [hdfimp, filter_imp_eq df c (hsubI c hc)]
      rw [hmapg]
      have hknd : keys.Nodup :=
        (List.perm_insertionSort strLe _).symm.nodup (List.nodup_dedup _)
      have hfnd : (categorias_interes.filter P).Nodup := interes_nodup.filter P
      have hmemiff : ∀ c, c ∈ keys ↔ c ∈ categorias_interes.filter P := by
        intro c
        rw [hkeys, List.mem_insertionSort, List.mem_dedup, List.mem_map, List.mem_filter]
        constructor
        · rintro ⟨m, hm, hmc⟩
          rw [hdfimp, List.mem_filter] at hm
          subst hmc
          refine ⟨by simpa using hm.2, ?_⟩
          rw [hP, List.any_eq_true]
          exact ⟨m, hm.1, by simp⟩
        · rintro ⟨hcI, hcP⟩
          rw [hP, List.any_eq_true] at hcP
          obtain ⟨m, hm, hmc⟩ := hcP
          rw [beq_iff_eq] at hmc
          refine ⟨m, ?_, hmc⟩
          rw [hdfimp, List.mem_filter]
          exact ⟨hm, by simp [hmc, hcI]⟩
      have hperm : keys.Perm (categorias_interes.filter P) :=
        (List.perm_ext_iff_of_nodup hknd hfnd).mpr hmemiff
      have hchain : (List.insertionSort ordenLe (keys.map g)).Perm
          ((categorias_interes.filter P).map g) :=
        (List.perm_insertionSort ordenLe _).trans (hperm.map g)
      have hsorted1 : (List.insertionSort ordenLe (keys.map g)).Pairwise ordenLe :=
        List.sorted_insertionSort ordenLe (keys.map g)
      have hfst : (keys.map g).map Prod.fst = keys := by
        rw [List.map_map]
        conv_rhs => rw [← List.map_id keys]
        apply List.map_congr_left
        intro c _
        simp [hg]
      have hfstnd : ((List.insertionSort ordenLe (keys.map g)).map Prod.fst).Nodup := by
        have hp2 : ((List.insertionSort ordenLe (keys.map g)).map Prod.fst).Perm
            ((keys.map g).map Prod.fst) :=
          (List.perm_insertionSort ordenLe (keys.map g)).map Prod.fst
        exact hp2.symm.nodup (hfst.symm ▸ hknd)
      have hne : (List.insertionSort ordenLe (keys.map g)).Pairwise
          (fun x y => x.1 ≠ y.1) :=
        List.pairwise_map.mp hfstnd
      have hmemI : ∀ x ∈ List.insertionSort ordenLe (keys.map g), x.1 ∈ categorias_interes := by
        intro x hx
        rw [List.mem_insertionSort, List.mem_map] at hx
        obtain ⟨c, hc, hcx⟩ := hx
        rw [← hcx, hg]
        exact hsubI c hc
      have hstrict : (List.insertionSort ordenLe (keys.map g)).Pairwise
          (fun x y => ordenIdx x.1 < ordenIdx y.1) := by
        refine (hsorted1.and hne).imp_of_mem ?_
        intro x y hx hy ⟨hle, hne'⟩
        refine lt_of_le_of_ne hle ?_
        intro hidx
        exact hne' (ordenIdx_inj x.1 (hmemI x hx) y.1 (hmemI y hy) hidx)
      have hsorted2 : ((categorias_interes.filter P).map g).Pairwise
          (fun x y => ordenIdx x.1 < ordenIdx y.1) := by
        rw [List.pairwise_map]
        have := interes_pairwise.filter P
        refine this.imp ?_
        intro a b h
        rw [hg]
        exact h
      exact List.eq_of_perm_of_sorted hchain hstrict hsorted2

